import Mathlib

/-!
Shallow embedding of the WebSocket connection manager of this repository
(`src/websocketManager.ts`, provided here as `src/unnamed/part_010`) together
with the WebSocket configuration constants of `src/src/utils.ts`.

Modelling conventions:
* Machine time (`Date.now()`) is an integer number of milliseconds, passed
  explicitly to the operations that read the clock.
* Retry delays are exact rationals (the JavaScript doubles produced by
  `initialDelay * 1.5^k` for the ranges reached here are exactly these
  rationals).
* The JavaScript timer runtime is made explicit: `setTimeout`/`setInterval`
  allocate a fresh timer id and add it to the corresponding pending list;
  `clearTimeout`/`clearInterval` remove the id; a timeout that fires is
  removed from the pending list.  Only pending timers may fire.
* A registered listener callback is a value `Cb`: a tag (standing for the
  identity of the JavaScript function object; two pushes of the same function
  carry the same tag) plus an effect describing what the callback body does
  when invoked: nothing, throw, or call the unsubscribe closure of the
  callback with a given tag in a given list.
* The ethers `WebSocketProvider` is abstracted to a connection id; whether
  the dial succeeds is an explicit oracle argument to `connect`.  A stored
  provider is modelled as open (`readyState === 1`).
* Transport events (`close`, `error`, `pong`) and timer fires are delivered
  by an environment trace (`Ev`/`step`/`run`).
-/

namespace WsMgr

/-- From src/src/utils.ts line 248: initial reconnect delay, 1000 ms. -/
def WS_RECONNECT_INITIAL_DELAY : ℚ := 1000

/-- From src/src/utils.ts line 249: maximum reconnect delay, 30000 ms. -/
def WS_RECONNECT_MAX_DELAY : ℚ := 30000

/-- From src/src/utils.ts line 250: exponential backoff multiplier 1.5. -/
def WS_RECONNECT_MULTIPLIER : ℚ := 3 / 2

/-- From src/src/utils.ts line 251: maximum reconnection attempts. -/
def WS_RECONNECT_MAX_ATTEMPTS : ℕ := 10

/-- From src/src/utils.ts line 252: heartbeat ping interval, 30000 ms. -/
def WS_HEARTBEAT_INTERVAL : ℤ := 30000

/-- From src/src/utils.ts line 253: heartbeat pong timeout, 5000 ms. -/
def WS_HEARTBEAT_TIMEOUT : ℤ := 5000

/-- The three listener lists of the manager. -/
inductive EvKind where
  | connected
  | disconnected
  | error
deriving DecidableEq, Repr

/-- What a registered callback body does when invoked. -/
inductive CbEffect where
  | noop
  | throwErr
  | unsubFirst (k : EvKind) (target : ℕ)
deriving DecidableEq, Repr

/-- A listener callback: `tag` is the identity of the JavaScript function
object (equal tags model the very same function object), `eff` its body. -/
structure Cb where
  tag : ℕ
  eff : CbEffect
deriving DecidableEq, Repr

/-- The scalar instance fields of class WebSocketManager
(src/unnamed/part_010 lines 27-43), minus the three callback arrays. -/
structure Manager where
  provider : Option ℕ
  url : String
  autoReconnect : Bool
  maxReconnectAttempts : ℕ
  heartbeatEnabled : Bool
  reconnectAttempts : ℕ
  reconnectDelay : ℚ
  reconnectTimer : Option ℕ
  isDestroyed : Bool
  heartbeatTimer : Option ℕ
  heartbeatTimeoutTimer : Option ℕ
  lastPongTime : ℤ
deriving DecidableEq, Repr

/-- The three callback arrays (src/unnamed/part_010 lines 46-48). -/
structure Listeners where
  onConnectedCallbacks : List Cb
  onDisconnectedCallbacks : List Cb
  onErrorCallbacks : List Cb
deriving DecidableEq, Repr

/-- Observables recorded while running: the tags of listener callbacks that
were actually invoked, in order, and the number of listener exceptions that
were caught and logged by the notify loops. -/
structure Obs where
  invoked : List ℕ
  caught : ℕ
deriving DecidableEq, Repr

/-- Manager state plus the explicit JavaScript timer runtime: pending
reconnect timeouts (with the delay they were armed with), the pending
heartbeat interval, pending heartbeat-timeout timeouts, and fresh-id
counters for timers and connections. -/
structure Sys where
  mgr : Manager
  ls : Listeners
  pendReconnect : List (ℕ × ℚ)
  pendHbInterval : List ℕ
  pendHbTimeout : List ℕ
  nextTimerId : ℕ
  nextConnId : ℕ
  obs : Obs
deriving DecidableEq, Repr

/-- Constructor config (src/unnamed/part_010 lines 18-24); `none` models an
omitted optional field. -/
structure WebSocketManagerConfig where
  url : String
  autoReconnect : Option Bool
  maxReconnectAttempts : Option ℕ
  heartbeatEnabled : Option Bool
deriving DecidableEq, Repr

/-- The constructor (src/unnamed/part_010 lines 50-56) with the field
initializers of lines 27-48; `??` defaults become `Option.getD`. -/
def mkSys (cfg : WebSocketManagerConfig) : Sys :=
  { mgr :=
      { provider := none
        url := cfg.url
        autoReconnect := cfg.autoReconnect.getD true
        maxReconnectAttempts := cfg.maxReconnectAttempts.getD WS_RECONNECT_MAX_ATTEMPTS
        heartbeatEnabled := cfg.heartbeatEnabled.getD true
        reconnectAttempts := 0
        reconnectDelay := WS_RECONNECT_INITIAL_DELAY
        reconnectTimer := none
        isDestroyed := false
        heartbeatTimer := none
        heartbeatTimeoutTimer := none
        lastPongTime := 0 }
    ls := { onConnectedCallbacks := [], onDisconnectedCallbacks := [], onErrorCallbacks := [] }
    pendReconnect := []
    pendHbInterval := []
    pendHbTimeout := []
    nextTimerId := 0
    nextConnId := 0
    obs := { invoked := [], caught := 0 } }

/-- The listener list of a given kind. -/
def listOf (l : Listeners) : EvKind → List Cb
  | .connected => l.onConnectedCallbacks
  | .disconnected => l.onDisconnectedCallbacks
  | .error => l.onErrorCallbacks

/-- Replace the listener list of a given kind. -/
def setListOf (l : Listeners) : EvKind → List Cb → Listeners
  | .connected, xs => { l with onConnectedCallbacks := xs }
  | .disconnected, xs => { l with onDisconnectedCallbacks := xs }
  | .error, xs => { l with onErrorCallbacks := xs }

/-- Remove the first callback with the given tag from a list: the effect of
calling the unsubscribe closure of that callback (`indexOf` + `splice`,
src/unnamed/part_010 lines 230-235); absent tag means no removal. -/
def removeFirstTag : List Cb → ℕ → List Cb
  | [], _ => []
  | c :: rest, t => if c.tag = t then rest else c :: removeFirstTag rest t

/-- Invoke one callback body: records the invocation, applies the body's
effect to the state, and reports whether the body threw. -/
def invokeCb (s : Sys) (cb : Cb) : Sys × Bool :=
  let s1 := { s with obs := { s.obs with invoked := s.obs.invoked ++ [cb.tag] } }
  match cb.eff with
  | .noop => (s1, false)
  | .throwErr => (s1, true)
  | .unsubFirst k t =>
      ({ s1 with ls := setListOf s1.ls k (removeFirstTag (listOf s1.ls k) t) }, false)

/-- One iteration body of a notify loop: `try { callback() } catch { log }`
(src/unnamed/part_010 lines 260-264). -/
def notifyStep (s : Sys) (cb : Cb) : Sys :=
  let r := invokeCb s cb
  if r.2 then { r.1 with obs := { r.1.obs with caught := r.1.obs.caught + 1 } } else r.1

/-- The `for (const callback of this.xxxCallbacks)` loop of the notify
methods: a JavaScript array iterator reads the live array by index, so a
callback that mutates the array affects which elements are still visited.
`fuel` bounds the iteration count (the loop runs at most the fire-time
length, since the callbacks here never append). -/
def notifyLoop (k : EvKind) (s : Sys) (i : ℕ) : ℕ → Sys
  | 0 => s
  | fuel + 1 =>
      let l := listOf s.ls k
      if h : i < l.length then
        notifyLoop k (notifyStep s (l.get ⟨i, h⟩)) (i + 1) fuel
      else s

/-- Fan out a notification over the live listener list of kind `k`. -/
def notify (k : EvKind) (s : Sys) : Sys :=
  notifyLoop k s 0 (listOf s.ls k).length

/-- notifyConnected (src/unnamed/part_010 lines 258-266). -/
def notifyConnected (s : Sys) : Sys := notify .connected s

/-- notifyDisconnected (src/unnamed/part_010 lines 268-276). -/
def notifyDisconnected (s : Sys) : Sys := notify .disconnected s

/-- notifyError (src/unnamed/part_010 lines 278-286); the error argument
plays no role in the model since callback bodies ignore it. -/
def notifyError (s : Sys) : Sys := notify .error s

/-- clearTimeout/clearInterval of an optional timer handle on a pending
list of plain timer ids. -/
def clearTimer (pend : List ℕ) : Option ℕ → List ℕ
  | some id => pend.filter (fun x => x ≠ id)
  | none => pend

/-- clearTimeout of an optional timer handle on the pending reconnect list
(entries carry their armed delay). -/
def clearTimerQ (pend : List (ℕ × ℚ)) : Option ℕ → List (ℕ × ℚ)
  | some id => pend.filter (fun p => p.1 ≠ id)
  | none => pend

/-- stopHeartbeat (src/unnamed/part_010 lines 174-184): clears both the
heartbeat interval and the heartbeat timeout timer and nulls both fields. -/
def stopHeartbeat (s : Sys) : Sys :=
  { s with
    pendHbInterval := clearTimer s.pendHbInterval s.mgr.heartbeatTimer
    pendHbTimeout := clearTimer s.pendHbTimeout s.mgr.heartbeatTimeoutTimer
    mgr := { s.mgr with heartbeatTimer := none, heartbeatTimeoutTimer := none } }

/-- startHeartbeat (src/unnamed/part_010 lines 149-172): stops any previous
heartbeat, arms a fresh interval timer, and records `lastPongTime = now`. -/
def startHeartbeat (s : Sys) (now : ℤ) : Sys :=
  let s1 := stopHeartbeat s
  { s1 with
    pendHbInterval := s1.pendHbInterval ++ [s1.nextTimerId]
    nextTimerId := s1.nextTimerId + 1
    mgr := { s1.mgr with heartbeatTimer := some s1.nextTimerId, lastPongTime := now } }

/-- scheduleReconnect (src/unnamed/part_010 lines 120-147): gives up when
`reconnectAttempts >= maxReconnectAttempts`; otherwise increments the
counter, computes `min(reconnectDelay * multiplier^(attempts-1), maxDelay)`
and arms a fresh timeout with that delay, overwriting the stored handle
without clearing any previously pending reconnect timer. -/
def scheduleReconnect (s : Sys) : Sys :=
  if s.mgr.reconnectAttempts ≥ s.mgr.maxReconnectAttempts then s
  else
    let attempts := s.mgr.reconnectAttempts + 1
    let delay :=
      min (s.mgr.reconnectDelay * WS_RECONNECT_MULTIPLIER ^ (attempts - 1))
        WS_RECONNECT_MAX_DELAY
    { s with
      pendReconnect := s.pendReconnect ++ [(s.nextTimerId, delay)]
      nextTimerId := s.nextTimerId + 1
      mgr := { s.mgr with reconnectAttempts := attempts, reconnectTimer := some s.nextTimerId } }

/-- handleDisconnection (src/unnamed/part_010 lines 110-118). -/
def handleDisconnection (s : Sys) : Sys :=
  let s1 := stopHeartbeat s
  let s2 := { s1 with mgr := { s1.mgr with provider := none } }
  let s3 := notifyDisconnected s2
  if s3.mgr.autoReconnect && !s3.mgr.isDestroyed then scheduleReconnect s3 else s3

/-- Result of a `connect()` call: the returned provider id, or the thrown
ConnectionError. -/
inductive ConnectResult where
  | ok (connId : ℕ)
  | connectionError
deriving DecidableEq, Repr

/-- connect (src/unnamed/part_010 lines 58-88).  `dialOk` is the oracle for
whether `new WebSocketProvider(url)` succeeds; on failure nothing has been
assigned, the error is logged and ConnectionError is thrown.  On success the
provider is stored, event listeners are wired (implicit in `step`), the
heartbeat starts when enabled, the reconnection state resets, and the
connected listeners are notified. -/
def connect (s : Sys) (dialOk : Bool) (now : ℤ) : Sys × ConnectResult :=
  match s.mgr.provider with
  | some p => (s, .ok p)
  | none =>
      if dialOk then
        let cid := s.nextConnId
        let s1 := { s with nextConnId := cid + 1, mgr := { s.mgr with provider := some cid } }
        let s2 := if s1.mgr.heartbeatEnabled then startHeartbeat s1 now else s1
        let s3 :=
          { s2 with
            mgr := { s2.mgr with
                      reconnectAttempts := 0
                      reconnectDelay := WS_RECONNECT_INITIAL_DELAY } }
        (notifyConnected s3, .ok cid)
      else (s, .connectionError)

/-- destroy (src/unnamed/part_010 lines 194-225): sets the destroyed flag,
disables auto-reconnect, clears the stored reconnect timer, stops the
heartbeat, closes and drops the provider, and empties all listener lists. -/
def destroy (s : Sys) : Sys :=
  let s1 :=
    { s with
      pendReconnect := clearTimerQ s.pendReconnect s.mgr.reconnectTimer
      mgr := { s.mgr with isDestroyed := true, autoReconnect := false, reconnectTimer := none } }
  let s2 := stopHeartbeat s1
  { s2 with
    mgr := { s2.mgr with provider := none }
    ls := { onConnectedCallbacks := [], onDisconnectedCallbacks := [], onErrorCallbacks := [] } }

/-- isConnected (src/unnamed/part_010 lines 190-192); the stored provider is
modelled as having an open websocket. -/
def isConnected (s : Sys) : Bool := s.mgr.provider.isSome

/-- The record returned by getStats (src/unnamed/part_010 lines 289-303). -/
structure Stats where
  connected : Bool
  reconnectAttempts : ℕ
  maxReconnectAttempts : ℕ
  autoReconnect : Bool
  lastPongTime : ℤ
deriving DecidableEq, Repr

/-- getStats (src/unnamed/part_010 lines 289-303). -/
def getStats (s : Sys) : Stats :=
  { connected := isConnected s
    reconnectAttempts := s.mgr.reconnectAttempts
    maxReconnectAttempts := s.mgr.maxReconnectAttempts
    autoReconnect := s.mgr.autoReconnect
    lastPongTime := s.mgr.lastPongTime }

/-- onConnected subscription (src/unnamed/part_010 lines 228-236): pushes
the callback. -/
def onConnected (s : Sys) (cb : Cb) : Sys :=
  { s with ls := { s.ls with onConnectedCallbacks := s.ls.onConnectedCallbacks ++ [cb] } }

/-- onDisconnected subscription (src/unnamed/part_010 lines 238-246). -/
def onDisconnected (s : Sys) (cb : Cb) : Sys :=
  { s with ls := { s.ls with onDisconnectedCallbacks := s.ls.onDisconnectedCallbacks ++ [cb] } }

/-- onError subscription (src/unnamed/part_010 lines 248-256). -/
def onError (s : Sys) (cb : Cb) : Sys :=
  { s with ls := { s.ls with onErrorCallbacks := s.ls.onErrorCallbacks ++ [cb] } }

/-- Remove the first occurrence of a callback value from a list: the body of
the closure returned by the subscription methods (`indexOf` finds the first
occurrence of the captured function object; `splice` removes it; a missing
callback is a no-op). -/
def removeFirstCb : List Cb → Cb → List Cb
  | [], _ => []
  | c :: rest, cb => if c = cb then rest else c :: removeFirstCb rest cb

/-- The unsubscribe closure returned by onConnected, applied to the state it
runs against (src/unnamed/part_010 lines 230-235). -/
def unsubscribeConnected (s : Sys) (cb : Cb) : Sys :=
  { s with ls := { s.ls with onConnectedCallbacks := removeFirstCb s.ls.onConnectedCallbacks cb } }

/-- The body of the heartbeat setInterval tick (src/unnamed/part_010 lines
152-169): returns early when no provider is stored; otherwise pings and arms
a fresh pong-timeout timer, overwriting the stored handle without clearing a
previously pending one. -/
def hbTick (s : Sys) : Sys :=
  match s.mgr.provider with
  | none => s
  | some _ =>
      { s with
        pendHbTimeout := s.pendHbTimeout ++ [s.nextTimerId]
        nextTimerId := s.nextTimerId + 1
        mgr := { s.mgr with heartbeatTimeoutTimer := some s.nextTimerId } }

/-- The condition under which the body of the pong-timeout timer
(src/unnamed/part_010 lines 161-168) terminates the transport: the time
since the last pong exceeds `2 * WS_HEARTBEAT_TIMEOUT`, and a provider is
present (the optional chaining on `this.provider?.websocket` makes
`terminate()` a no-op otherwise).  The check itself mutates nothing; the
forced close is delivered through the normal close handling in `step`. -/
def hbDead (m : Manager) (now : ℤ) : Bool :=
  (now - m.lastPongTime > WS_HEARTBEAT_TIMEOUT * 2) && m.provider.isSome

/-- Environment events: public calls, transport events delivered to the
wired listeners, and timer fires.  Times are explicit `Date.now()` values;
dial outcomes are explicit oracles. -/
inductive Ev where
  | connectCall (dialOk : Bool) (now : ℤ)
  | closeEvent
  | errorEvent
  | pongEvent (now : ℤ)
  | reconnectFire (id : ℕ) (dialOk : Bool) (now : ℤ)
  | hbTickFire (id : ℕ)
  | hbTimeoutFire (id : ℕ) (now : ℤ)
  | destroyCall
  | subscribeConnected (cb : Cb)
  | subscribeDisconnected (cb : Cb)
  | subscribeError (cb : Cb)
deriving DecidableEq, Repr

/-- One environment step.  A timer fire only happens for a pending timer and
consumes a timeout; the reconnect timer body is `try { await connect() }
catch { log }` (src/unnamed/part_010 lines 140-146); the `close` and `pong`
websocket handlers are lines 95-98 and 105-107 (a close handler of any
websocket this manager ever wired may fire, and its body does not consult
the stored provider). -/
def step (s : Sys) : Ev → Sys
  | .connectCall dialOk now => (connect s dialOk now).1
  | .closeEvent => handleDisconnection s
  | .errorEvent => notifyError s
  | .pongEvent now => { s with mgr := { s.mgr with lastPongTime := now } }
  | .reconnectFire id dialOk now =>
      if s.pendReconnect.any (fun p => p.1 = id) then
        let s1 := { s with pendReconnect := s.pendReconnect.filter (fun p => p.1 ≠ id) }
        (connect s1 dialOk now).1
      else s
  | .hbTickFire id => if s.pendHbInterval.contains id then hbTick s else s
  | .hbTimeoutFire id now =>
      if s.pendHbTimeout.contains id then
        let s1 := { s with pendHbTimeout := s.pendHbTimeout.filter (fun x => x ≠ id) }
        if hbDead s1.mgr now then handleDisconnection s1 else s1
      else s
  | .destroyCall => destroy s
  | .subscribeConnected cb => onConnected s cb
  | .subscribeDisconnected cb => onDisconnected s cb
  | .subscribeError cb => onError s cb

/-- Run an environment trace. -/
def run (s : Sys) : List Ev → Sys
  | [] => s
  | e :: rest => run (step s e) rest

/-- A callback whose body does not mutate the listener lists (it may still
throw). -/
def benign (cb : Cb) : Bool :=
  match cb.eff with
  | .unsubFirst _ _ => false
  | _ => true

/-- The manager-plus-timer part of the state: everything except the listener
lists and the invocation observables. -/
def core (s : Sys) : Manager × List (ℕ × ℚ) × List ℕ × List ℕ × ℕ × ℕ :=
  (s.mgr, s.pendReconnect, s.pendHbInterval, s.pendHbTimeout, s.nextTimerId, s.nextConnId)

/-- A default configuration: every optional field omitted. -/
def cfgDefault : WebSocketManagerConfig :=
  { url := "ws://example", autoReconnect := none, maxReconnectAttempts := none,
    heartbeatEnabled := none }

/-- A configuration with the heartbeat disabled, other options defaulted. -/
def cfgNoHb : WebSocketManagerConfig :=
  { url := "ws://example", autoReconnect := none, maxReconnectAttempts := none,
    heartbeatEnabled := some false }

/-- A configuration with maxReconnectAttempts = 0 and the heartbeat
disabled. -/
def cfgMax0 : WebSocketManagerConfig :=
  { url := "ws://example", autoReconnect := none, maxReconnectAttempts := some 0,
    heartbeatEnabled := some false }

theorem invokeCb_core (s : Sys) (cb : Cb) : core (invokeCb s cb).1 = core s := by
  unfold invokeCb core
  cases cb.eff <;> simp

theorem notifyStep_core (s : Sys) (cb : Cb) : core (notifyStep s cb) = core s := by
  unfold notifyStep
  rcases h : invokeCb s cb with ⟨s1, thrown⟩
  have hc : core s1 = core s := by
    have := invokeCb_core s cb
    rw [h] at this
    exact this
  cases thrown <;> simp_all [core]

theorem notifyLoop_core (k : EvKind) :
    ∀ (fuel i : ℕ) (s : Sys), core (notifyLoop k s i fuel) = core s := by
  intro fuel
  induction fuel with
  | zero => intro i s; rfl
  | succ fuel ih =>
      intro i s
      unfold notifyLoop
      by_cases h : i < (listOf s.ls k).length
      · simp only [h, dite_true]
        rw [ih (i + 1) (notifyStep s ((listOf s.ls k).get ⟨i, h⟩))]
        exact notifyStep_core s _
      · simp [h]

theorem notify_core (k : EvKind) (s : Sys) : core (notify k s) = core s :=
  notifyLoop_core k _ 0 s

theorem notify_mgr (k : EvKind) (s : Sys) : (notify k s).mgr = s.mgr :=
  congrArg (fun c => c.1) (notify_core k s)

theorem notify_pendReconnect (k : EvKind) (s : Sys) :
    (notify k s).pendReconnect = s.pendReconnect :=
  congrArg (fun c => c.2.1) (notify_core k s)

theorem notify_pendHbInterval (k : EvKind) (s : Sys) :
    (notify k s).pendHbInterval = s.pendHbInterval :=
  congrArg (fun c => c.2.2.1) (notify_core k s)

theorem notify_pendHbTimeout (k : EvKind) (s : Sys) :
    (notify k s).pendHbTimeout = s.pendHbTimeout :=
  congrArg (fun c => c.2.2.2.1) (notify_core k s)

theorem notify_nextTimerId (k : EvKind) (s : Sys) :
    (notify k s).nextTimerId = s.nextTimerId :=
  congrArg (fun c => c.2.2.2.2.1) (notify_core k s)

theorem notify_nextConnId (k : EvKind) (s : Sys) :
    (notify k s).nextConnId = s.nextConnId :=
  congrArg (fun c => c.2.2.2.2.2) (notify_core k s)

theorem notifyConnected_mgr (s : Sys) : (notifyConnected s).mgr = s.mgr :=
  notify_mgr .connected s

theorem notifyDisconnected_mgr (s : Sys) : (notifyDisconnected s).mgr = s.mgr :=
  notify_mgr .disconnected s

theorem notifyDisconnected_pendReconnect (s : Sys) :
    (notifyDisconnected s).pendReconnect = s.pendReconnect :=
  notify_pendReconnect .disconnected s

theorem notifyConnected_pendReconnect (s : Sys) :
    (notifyConnected s).pendReconnect = s.pendReconnect :=
  notify_pendReconnect .connected s

theorem destroy_mgr_fields (s : Sys) :
    (destroy s).mgr.provider = none ∧ (destroy s).mgr.isDestroyed = true ∧
      (destroy s).mgr.autoReconnect = false := by
  simp [destroy, stopHeartbeat]

theorem connect_of_provider_none (s : Sys) (now : ℤ) (h : s.mgr.provider = none) :
    connect s true now =
      (notifyConnected
        (let s1 :=
          { s with nextConnId := s.nextConnId + 1,
                   mgr := { s.mgr with provider := some s.nextConnId } }
         let s2 := if s1.mgr.heartbeatEnabled then startHeartbeat s1 now else s1
         { s2 with
           mgr := { s2.mgr with
                     reconnectAttempts := 0
                     reconnectDelay := WS_RECONNECT_INITIAL_DELAY } }),
        .ok s.nextConnId) := by
  unfold connect
  rw [h]
  rfl

end WsMgr

namespace WsMgr

/-- Claim C1 counterexample: on a freshly destroyed manager, a `connect()`
call with a successful dial does not raise an error; it returns a new
provider and the manager reports connected. -/
theorem connect_after_destroy_not_failfast :
    (connect (destroy (mkSys cfgNoHb)) true 0).2 = .ok 0 ∧
      isConnected (connect (destroy (mkSys cfgNoHb)) true 0).1 = true := by
  decide

/-- Claim C1 (amended): `connect()` never consults the destroyed flag.  After
`destroy()`, a subsequent `connect()` with a successful dial establishes and
stores a new connection and returns it — resuming operation — while
`isDestroyed` stays true and `autoReconnect` stays false. -/
theorem connect_after_destroy_resumes (s : Sys) (now : ℤ) :
    (connect (destroy s) true now).2 = .ok (destroy s).nextConnId ∧
      ((connect (destroy s) true now).1).mgr.provider = some (destroy s).nextConnId ∧
      ((connect (destroy s) true now).1).mgr.isDestroyed = true ∧
      ((connect (destroy s) true now).1).mgr.autoReconnect = false := by
  obtain ⟨hp, hd, ha⟩ := destroy_mgr_fields s
  rw [connect_of_provider_none (destroy s) now hp]
  refine ⟨rfl, ?_⟩
  dsimp only
  rw [notifyConnected_mgr]
  by_cases hb : (destroy s).mgr.heartbeatEnabled = true <;>
    simp [hb, startHeartbeat, stopHeartbeat, hd, ha]

theorem connect_dial_fail_state (s : Sys) (now : ℤ) : (connect s false now).1 = s := by
  unfold connect
  cases hp : s.mgr.provider <;> simp

theorem connect_dial_fail (s : Sys) (now : ℤ) (h : s.mgr.provider = none) :
    connect s false now = (s, .connectionError) := by
  unfold connect
  rw [h]
  rfl

/-- Claim C2 counterexample: a fresh manager with autoReconnect on (the
default) and not destroyed; `connect()` fails, the ConnectionError is
raised, and no reconnect retry timer is armed. -/
theorem connect_failure_arms_no_timer :
    (mkSys cfgDefault).mgr.autoReconnect = true ∧
      (mkSys cfgDefault).mgr.isDestroyed = false ∧
      (connect (mkSys cfgDefault) false 0).2 = .connectionError ∧
      (connect (mkSys cfgDefault) false 0).1.pendReconnect = [] ∧
      (connect (mkSys cfgDefault) false 0).1.mgr.reconnectTimer = none := by
  decide

/-- Claim C2 (amended): a failed dial leaves the manager exactly as it was
and never arms a retry, regardless of autoReconnect.  A caller-initiated
`connect()` failure raises ConnectionError with state unchanged; a
scheduler-initiated failure on timer fire is caught inside the timer body
(not propagated), consumes the fired timer, and arms no subsequent retry —
retries are armed only by the transport-close handling. -/
theorem connect_failure_no_retry :
    (∀ s now, s.mgr.provider = none → connect s false now = (s, .connectionError)) ∧
      (∀ s id now, (step s (.reconnectFire id false now)).mgr = s.mgr ∧
        (step s (.reconnectFire id false now)).pendReconnect =
          s.pendReconnect.filter (fun p => p.1 ≠ id)) := by
  constructor
  · exact fun s now h => connect_dial_fail s now h
  · intro s id now
    simp only [step]
    by_cases h : s.pendReconnect.any (fun p => p.1 = id) = true
    · rw [if_pos h, connect_dial_fail_state]
      exact ⟨rfl, rfl⟩
    · rw [if_neg h]
      refine ⟨rfl, ?_⟩
      have hmem : ∀ a ∈ s.pendReconnect, ¬ a.1 = id := by
        intro a ha he
        exact h (List.any_eq_true.mpr ⟨a, ha, by simp [he]⟩)
      exact (List.filter_eq_self.mpr (fun a ha => by simpa using hmem a ha)).symm

/-- Claim C2 witness: the caller-initiated branch of the amended theorem at
the fresh default manager. -/
theorem connect_failure_no_retry_witness :
    connect (mkSys cfgDefault) false 0 = (mkSys cfgDefault, .connectionError) :=
  connect_failure_no_retry.1 (mkSys cfgDefault) 0 rfl

/-- The delay the code arms for the i-th consecutive retry (1-based):
`min(initialDelay * multiplier^(i-1), maxDelay)` — the expression of
src/unnamed/part_010 lines 129-132 given that `reconnectDelay` always holds
`WS_RECONNECT_INITIAL_DELAY`. -/
def delayFor (i : ℕ) : ℚ :=
  min (WS_RECONNECT_INITIAL_DELAY * WS_RECONNECT_MULTIPLIER ^ (i - 1)) WS_RECONNECT_MAX_DELAY

/-- The `reconnectDelay` field always holds the initial delay: the code only
ever assigns `WS_RECONNECT_INITIAL_DELAY` to it. -/
def DelayInv (s : Sys) : Prop := s.mgr.reconnectDelay = WS_RECONNECT_INITIAL_DELAY

theorem scheduleReconnect_reconnectDelay (s : Sys) :
    (scheduleReconnect s).mgr.reconnectDelay = s.mgr.reconnectDelay := by
  simp only [scheduleReconnect]
  split <;> simp

theorem handleDisconnection_reconnectDelay (s : Sys) :
    (handleDisconnection s).mgr.reconnectDelay = s.mgr.reconnectDelay := by
  simp only [handleDisconnection]
  split <;>
    simp [scheduleReconnect_reconnectDelay, notifyDisconnected_mgr, stopHeartbeat]

theorem connect_reconnectDelay (s : Sys) (dialOk : Bool) (now : ℤ) (h : DelayInv s) :
    DelayInv (connect s dialOk now).1 := by
  unfold DelayInv at h ⊢
  cases hp : s.mgr.provider with
  | some p =>
      unfold connect
      rw [hp]
      exact h
  | none =>
      cases dialOk with
      | false => rw [connect_dial_fail_state]; exact h
      | true =>
          rw [connect_of_provider_none s now hp]
          dsimp only
          rw [notifyConnected_mgr]

theorem step_reconnectDelay (s : Sys) (e : Ev) (h : DelayInv s) : DelayInv (step s e) := by
  cases e with
  | connectCall dialOk now => exact connect_reconnectDelay s dialOk now h
  | closeEvent =>
      unfold DelayInv at h ⊢
      rw [step, handleDisconnection_reconnectDelay]
      exact h
  | errorEvent =>
      unfold DelayInv at h ⊢
      rw [step, notifyError, notify_mgr]
      exact h
  | pongEvent now => exact h
  | reconnectFire id dialOk now =>
      simp only [step]
      split
      · exact connect_reconnectDelay _ dialOk now h
      · exact h
  | hbTickFire id =>
      simp only [step]
      split
      · unfold DelayInv at h ⊢
        unfold hbTick
        cases hp : s.mgr.provider <;> simp [hp, h]
      · exact h
  | hbTimeoutFire id now =>
      simp only [step]
      split
      · split
        · unfold DelayInv at h ⊢
          rw [handleDisconnection_reconnectDelay]
          exact h
        · exact h
      · exact h
  | destroyCall =>
      unfold DelayInv at h ⊢
      simp [step, destroy, stopHeartbeat, h]
  | subscribeConnected cb => exact h
  | subscribeDisconnected cb => exact h
  | subscribeError cb => exact h

theorem run_reconnectDelay (evs : List Ev) : ∀ s : Sys, DelayInv s → DelayInv (run s evs) := by
  induction evs with
  | nil => exact fun s h => h
  | cons e rest ih => exact fun s h => ih (step s e) (step_reconnectDelay s e h)

/-- Claim C3: the `reconnectDelay` factor in the armed-delay expression is
always the initial delay (it is only ever assigned
`WS_RECONNECT_INITIAL_DELAY`), so the delay armed for the i-th consecutive
retry is `min(initialDelay * multiplier^(i-1), maxDelay)`; with the
constants 1000 ms / 1.5 / 30000 ms the successive delays are 1000, 1500,
2250, 3375, ... and every retry from the 10th on is capped at 30000. -/
theorem reconnect_delay_formula :
    (∀ cfg evs, (run (mkSys cfg) evs).mgr.reconnectDelay = WS_RECONNECT_INITIAL_DELAY) ∧
      (∀ s i, s.mgr.reconnectDelay = WS_RECONNECT_INITIAL_DELAY →
        s.mgr.reconnectAttempts + 1 = i →
        s.mgr.reconnectAttempts < s.mgr.maxReconnectAttempts →
        (scheduleReconnect s).pendReconnect =
          s.pendReconnect ++ [(s.nextTimerId, delayFor i)]) ∧
      (delayFor 1 = 1000 ∧ delayFor 2 = 1500 ∧ delayFor 3 = 2250 ∧ delayFor 4 = 3375) ∧
      (∀ i, 10 ≤ i → delayFor i = 30000) := by
  have hconc : delayFor 1 = 1000 ∧ delayFor 2 = 1500 ∧ delayFor 3 = 2250 ∧ delayFor 4 = 3375 := by
    norm_num [delayFor, WS_RECONNECT_INITIAL_DELAY, WS_RECONNECT_MULTIPLIER,
      WS_RECONNECT_MAX_DELAY]
  refine ⟨?_, ?_, hconc, ?_⟩
  · exact fun cfg evs => run_reconnectDelay evs (mkSys cfg) rfl
  · intro s i h1 h2 h3
    have hnot : ¬ s.mgr.reconnectAttempts ≥ s.mgr.maxReconnectAttempts := by omega
    have hi : i - 1 = s.mgr.reconnectAttempts := by omega
    simp only [scheduleReconnect, hnot, if_false, delayFor, hi, h1]
    simp
  · intro i hi
    have h9 : (3 / 2 : ℚ) ^ 9 ≤ (3 / 2 : ℚ) ^ (i - 1) :=
      pow_le_pow_right₀ (by norm_num) (by omega)
    have h99 : ((3 : ℚ) / 2) ^ 9 = 19683 / 512 := by norm_num
    have h30 : (30000 : ℚ) ≤ 1000 * (3 / 2 : ℚ) ^ (i - 1) := by linarith
    unfold delayFor WS_RECONNECT_INITIAL_DELAY WS_RECONNECT_MULTIPLIER WS_RECONNECT_MAX_DELAY
    exact min_eq_right h30

/-- Claim C3 witness: the retry-arming branch of the theorem at the fresh
default manager (first retry, delay 1000 ms). -/
theorem reconnect_delay_formula_witness :
    (scheduleReconnect (mkSys cfgDefault)).pendReconnect = [(0, delayFor 1)] := by
  have h :=
    reconnect_delay_formula.2.1 (mkSys cfgDefault) 1 (by rfl) (by rfl) (by decide)
  simpa using h

/-- Claim C4 counterexample: with `maxReconnectAttempts = 0`, the transport
close reaches the give-up branch (attempts 0 >= max 0: nothing armed,
manager disconnected); the subsequent manual `connect()` failure leaves the
attempt counter at 0 and arms nothing — counting does not restart from 1. -/
theorem giveup_connect_failure_counterexample :
    (run (mkSys cfgMax0) [.connectCall true 0, .closeEvent]).mgr.reconnectAttempts = 0 ∧
      (run (mkSys cfgMax0) [.connectCall true 0, .closeEvent]).pendReconnect = [] ∧
      (run (mkSys cfgMax0)
          [.connectCall true 0, .closeEvent, .connectCall false 5]).mgr.reconnectAttempts = 0 ∧
      (run (mkSys cfgMax0)
          [.connectCall true 0, .closeEvent, .connectCall false 5]).pendReconnect = [] ∧
      (run (mkSys cfgMax0)
          [.connectCall true 0, .closeEvent, .connectCall false 5]).mgr.reconnectTimer = none := by
  decide

/-- Claim C4 (amended): the scheduler increments the attempt counter before
arming a retry timer; once the counter has reached `maxAttempts` a
scheduling request arms nothing and changes nothing, until a caller manually
invokes `connect()`: a successful manual connect resets the counter to 0,
while a failed manual connect leaves the manager state (counter included)
entirely unchanged and arms nothing — counting does not restart from 1. -/
theorem attempt_counter_policy :
    (∀ s, s.mgr.reconnectAttempts < s.mgr.maxReconnectAttempts →
      (scheduleReconnect s).mgr.reconnectAttempts = s.mgr.reconnectAttempts + 1 ∧
        (scheduleReconnect s).pendReconnect.length = s.pendReconnect.length + 1 ∧
        (scheduleReconnect s).mgr.reconnectTimer = some s.nextTimerId) ∧
      (∀ s, s.mgr.maxReconnectAttempts ≤ s.mgr.reconnectAttempts →
        scheduleReconnect s = s) ∧
      (∀ s now, s.mgr.provider = none →
        ((connect s true now).1).mgr.reconnectAttempts = 0) ∧
      (∀ s now, s.mgr.provider = none → connect s false now = (s, .connectionError)) := by
  refine ⟨?_, ?_, ?_, fun s now h => connect_dial_fail s now h⟩
  · intro s h
    have hnot : ¬ s.mgr.reconnectAttempts ≥ s.mgr.maxReconnectAttempts := by omega
    simp [scheduleReconnect, hnot]
  · intro s h
    simp [scheduleReconnect, h]
  · intro s now h
    rw [connect_of_provider_none s now h]
    dsimp only
    rw [notifyConnected_mgr]

/-- Claim C4 witness: the four branches at concrete states. -/
theorem attempt_counter_policy_witness :
    (scheduleReconnect (mkSys cfgDefault)).mgr.reconnectAttempts = 1 ∧
      scheduleReconnect (mkSys cfgMax0) = mkSys cfgMax0 ∧
      ((connect (mkSys cfgDefault) true 0).1).mgr.reconnectAttempts = 0 ∧
      connect (mkSys cfgDefault) false 0 = (mkSys cfgDefault, .connectionError) := by
  refine ⟨?_, ?_, ?_, ?_⟩
  · have h := (attempt_counter_policy.1 (mkSys cfgDefault) (by decide)).1
    simpa using h
  · exact attempt_counter_policy.2.1 (mkSys cfgMax0) (by decide)
  · exact attempt_counter_policy.2.2.1 (mkSys cfgDefault) 0 rfl
  · exact attempt_counter_policy.2.2.2 (mkSys cfgDefault) 0 rfl

/-- The pending heartbeat-interval timers are exactly the stored handle:
`startHeartbeat` always clears before arming, so at most one interval timer
is ever pending. -/
def HbInv (s : Sys) : Prop := s.pendHbInterval = s.mgr.heartbeatTimer.toList

theorem clearTimer_toList (pend : List ℕ) (t : Option ℕ) (h : pend = t.toList) :
    clearTimer pend t = [] := by
  cases t <;> simp_all [clearTimer]

theorem notify_hbInv (k : EvKind) (s : Sys) (h : HbInv s) : HbInv (notify k s) := by
  unfold HbInv at h ⊢
  rw [notify_pendHbInterval, notify_mgr]
  exact h

theorem connect_hbInv (s : Sys) (dialOk : Bool) (now : ℤ) (h : HbInv s) :
    HbInv (connect s dialOk now).1 := by
  cases hp : s.mgr.provider with
  | some p => unfold connect; rw [hp]; exact h
  | none =>
      cases dialOk with
      | false => rw [connect_dial_fail_state]; exact h
      | true =>
          unfold HbInv at h ⊢
          rw [connect_of_provider_none s now hp]
          dsimp only
          simp only [notifyConnected, notify_pendHbInterval, notify_mgr]
          by_cases hb : s.mgr.heartbeatEnabled = true
          · simp [hb, startHeartbeat, stopHeartbeat, clearTimer_toList _ _ h]
          · simp [hb, h]

theorem scheduleReconnect_hbFields (s : Sys) :
    (scheduleReconnect s).pendHbInterval = s.pendHbInterval ∧
      (scheduleReconnect s).mgr.heartbeatTimer = s.mgr.heartbeatTimer := by
  simp only [scheduleReconnect]
  split <;> simp

theorem handleDisconnection_hbInv (s : Sys) (h : HbInv s) : HbInv (handleDisconnection s) := by
  unfold HbInv at h ⊢
  simp only [handleDisconnection]
  split
  · rw [(scheduleReconnect_hbFields _).1, (scheduleReconnect_hbFields _).2]
    simp [notifyDisconnected, notify_pendHbInterval, notify_mgr, stopHeartbeat,
      clearTimer_toList _ _ h]
  · simp [notifyDisconnected, notify_pendHbInterval, notify_mgr, stopHeartbeat,
      clearTimer_toList _ _ h]

theorem destroy_hbInv (s : Sys) (h : HbInv s) : HbInv (destroy s) := by
  unfold HbInv at h ⊢
  simp [destroy, stopHeartbeat, clearTimer_toList _ _ h]

theorem hbTick_hbInv (s : Sys) (h : HbInv s) : HbInv (hbTick s) := by
  unfold HbInv at h ⊢
  unfold hbTick
  cases hp : s.mgr.provider <;> simp [hp, h]

theorem step_hbInv (s : Sys) (e : Ev) (h : HbInv s) : HbInv (step s e) := by
  cases e with
  | connectCall dialOk now => exact connect_hbInv s dialOk now h
  | closeEvent => exact handleDisconnection_hbInv s h
  | errorEvent => exact notify_hbInv .error s h
  | pongEvent now => exact h
  | reconnectFire id dialOk now =>
      simp only [step]
      split
      · exact connect_hbInv _ dialOk now h
      · exact h
  | hbTickFire id =>
      simp only [step]
      split
      · exact hbTick_hbInv s h
      · exact h
  | hbTimeoutFire id now =>
      simp only [step]
      split
      · split
        · exact handleDisconnection_hbInv _ h
        · exact h
      · exact h
  | destroyCall => exact destroy_hbInv s h
  | subscribeConnected cb => exact h
  | subscribeDisconnected cb => exact h
  | subscribeError cb => exact h

theorem run_hbInv (evs : List Ev) : ∀ s : Sys, HbInv s → HbInv (run s evs) := by
  induction evs with
  | nil => exact fun s h => h
  | cons e rest ih => exact fun s h => ih (step s e) (step_hbInv s e h)

/-- Claim C5 counterexample: a realistic trace — connect, transport close
(first retry timer armed), manual reconnect before the timer fires, close
again — leaves two reconnect timers (ids 0 and 1) pending at once:
`scheduleReconnect` overwrites the stored handle without cancelling. -/
theorem two_pending_reconnect_timers :
    (run (mkSys cfgNoHb) [.connectCall true 0, .closeEvent, .connectCall true 10,
        .closeEvent]).pendReconnect.length = 2 ∧
      (run (mkSys cfgNoHb) [.connectCall true 0, .closeEvent, .connectCall true 10,
          .closeEvent]).pendReconnect.map Prod.fst = [0, 1] := by
  decide

/-- Claim C5 (amended): at most one heartbeat interval timer is ever pending
(startHeartbeat stops the previous heartbeat before arming), but the same
does not hold for reconnect timers: `scheduleReconnect` never cancels a
previously pending reconnect timer — it only appends — so several reconnect
timers can be pending simultaneously. -/
theorem timer_cancellation_policy :
    (∀ cfg evs, (run (mkSys cfg) evs).pendHbInterval.length ≤ 1) ∧
      (∀ s, ∃ l, (scheduleReconnect s).pendReconnect = s.pendReconnect ++ l) := by
  constructor
  · intro cfg evs
    have h := run_hbInv evs (mkSys cfg) rfl
    rw [HbInv] at h
    rw [h]
    cases (run (mkSys cfg) evs).mgr.heartbeatTimer <;> simp
  · intro s
    simp only [scheduleReconnect]
    split
    · exact ⟨[], by simp⟩
    · exact ⟨_, rfl⟩

theorem notifyStep_benign (s : Sys) (cb : Cb) (h : benign cb = true) :
    (notifyStep s cb).ls = s.ls ∧
      (notifyStep s cb).obs.invoked = s.obs.invoked ++ [cb.tag] := by
  unfold notifyStep invokeCb
  cases he : cb.eff <;> simp_all [benign]

theorem notifyLoop_benign (k : EvKind) :
    ∀ (fuel i : ℕ) (s : Sys),
      (∀ cb ∈ listOf s.ls k, benign cb = true) →
      (listOf s.ls k).length ≤ i + fuel →
      (notifyLoop k s i fuel).ls = s.ls ∧
        (notifyLoop k s i fuel).obs.invoked =
          s.obs.invoked ++ ((listOf s.ls k).drop i).map Cb.tag := by
  intro fuel
  induction fuel with
  | zero =>
      intro i s hb hlen
      refine ⟨rfl, ?_⟩
      rw [List.drop_eq_nil_of_le (by omega)]
      simp [notifyLoop]
  | succ fuel ih =>
      intro i s hb hlen
      unfold notifyLoop
      by_cases h : i < (listOf s.ls k).length
      · simp only [h, dite_true]
        have hbcb : benign ((listOf s.ls k).get ⟨i, h⟩) = true :=
          hb _ (List.get_mem _ _ _)
        obtain ⟨hls, hinv⟩ := notifyStep_benign s ((listOf s.ls k).get ⟨i, h⟩) hbcb
        have hlist : listOf (notifyStep s ((listOf s.ls k).get ⟨i, h⟩)).ls k = listOf s.ls k := by
          rw [hls]
        obtain ⟨ih1, ih2⟩ :=
          ih (i + 1) (notifyStep s ((listOf s.ls k).get ⟨i, h⟩))
            (by rw [hlist]; exact hb) (by rw [hlist]; omega)
        refine ⟨ih1.trans hls, ?_⟩
        rw [ih2, hlist, hinv, List.drop_eq_getElem_cons h]
        simp
        conv_rhs => rw [List.drop_eq_getElem_cons (by simpa using h)]
        simp
      · rw [dif_neg h]
        refine ⟨rfl, ?_⟩
        rw [List.drop_eq_nil_of_le (by omega)]
        simp

theorem notify_benign (k : EvKind) (s : Sys)
    (h : ∀ cb ∈ listOf s.ls k, benign cb = true) :
    (notify k s).ls = s.ls ∧
      (notify k s).obs.invoked = s.obs.invoked ++ (listOf s.ls k).map Cb.tag := by
  have hl := notifyLoop_benign k (listOf s.ls k).length 0 s h (by omega)
  simpa [notify] using hl

theorem connect_success_invoked (s : Sys) (now : ℤ) (hp : s.mgr.provider = none)
    (hb : ∀ cb ∈ s.ls.onConnectedCallbacks, benign cb = true) :
    ((connect s true now).1).obs.invoked =
      s.obs.invoked ++ s.ls.onConnectedCallbacks.map Cb.tag := by
  rw [connect_of_provider_none s now hp]
  dsimp only
  by_cases h : s.mgr.heartbeatEnabled = true
  · simp only [h, if_true]
    refine (notify_benign .connected _ ?_).2
    exact hb
  · simp only [h, if_false]
    refine (notify_benign .connected _ ?_).2
    exact hb

theorem connect_success_scalars (s : Sys) (now : ℤ) (hp : s.mgr.provider = none) :
    ((connect s true now).1).mgr.provider = some s.nextConnId ∧
      (connect s true now).2 = .ok s.nextConnId ∧
      ((connect s true now).1).mgr.reconnectAttempts = 0 ∧
      (s.mgr.heartbeatEnabled = true →
        ((connect s true now).1).mgr.heartbeatTimer = some s.nextTimerId) ∧
      (s.mgr.heartbeatEnabled = false →
        ((connect s true now).1).mgr.heartbeatTimer = s.mgr.heartbeatTimer) := by
  rw [connect_of_provider_none s now hp]
  dsimp only
  rw [notifyConnected_mgr]
  by_cases h : s.mgr.heartbeatEnabled = true <;>
    simp [h, startHeartbeat, stopHeartbeat]

/-- Claim C6: the contract of `connect()`.  When a provider is already
stored, the call returns it with the state literally unchanged (no new dial,
no side effects).  Otherwise, on dial success the new connection id is
stored and returned, the attempt counter resets to 0, the heartbeat
interval timer is armed exactly when heartbeat is enabled, and the connected
listeners (here: listeners whose bodies do not mutate the registries) are
all invoked in order. -/
theorem connect_contract :
    (∀ s dialOk now p, s.mgr.provider = some p → connect s dialOk now = (s, .ok p)) ∧
      (∀ s now, s.mgr.provider = none →
        (∀ cb ∈ s.ls.onConnectedCallbacks, benign cb = true) →
        ((connect s true now).1).mgr.provider = some s.nextConnId ∧
          (connect s true now).2 = .ok s.nextConnId ∧
          ((connect s true now).1).mgr.reconnectAttempts = 0 ∧
          (s.mgr.heartbeatEnabled = true →
            ((connect s true now).1).mgr.heartbeatTimer = some s.nextTimerId) ∧
          (s.mgr.heartbeatEnabled = false →
            ((connect s true now).1).mgr.heartbeatTimer = s.mgr.heartbeatTimer) ∧
          ((connect s true now).1).obs.invoked =
            s.obs.invoked ++ s.ls.onConnectedCallbacks.map Cb.tag) := by
  constructor
  · intro s dialOk now p hp
    unfold connect
    rw [hp]
  · intro s now hp hb
    obtain ⟨h1, h2, h3, h4, h5⟩ := connect_success_scalars s now hp
    exact ⟨h1, h2, h3, h4, h5, connect_success_invoked s now hp hb⟩

/-- Claim C6 witness: both branches at concrete states — a second
`connect()` on a connected manager returns the stored provider unchanged,
and a first `connect()` with one registered listener stores provider 0,
resets the counter, arms no heartbeat (disabled config), and invokes the
listener. -/
theorem connect_contract_witness :
    connect ((connect (mkSys cfgNoHb) true 0).1) true 5 =
        ((connect (mkSys cfgNoHb) true 0).1, .ok 0) ∧
      ((connect (onConnected (mkSys cfgNoHb) ⟨5, .noop⟩) true 0).1).mgr.provider = some 0 ∧
      ((connect (onConnected (mkSys cfgNoHb) ⟨5, .noop⟩) true 0).1).obs.invoked = [5] := by
  refine ⟨connect_contract.1 _ true 5 0 (by decide), ?_, ?_⟩
  · have h := connect_contract.2 (onConnected (mkSys cfgNoHb) ⟨5, .noop⟩) 0 rfl (by decide)
    simpa using h.1
  · have h := connect_contract.2 (onConnected (mkSys cfgNoHb) ⟨5, .noop⟩) 0 rfl (by decide)
    simpa using h.2.2.2.2.2

/-- Claim C7 counterexample: two listeners are registered at fire time (tags
0 and 1; the first one's body calls its own unsubscribe closure).  On the
connected notification only tag 0 runs: the loop reads the live array by
index, the self-removal shifts tag 1 to index 0 which was already passed, so
the still-registered callback 1 is skipped — the iteration is not over a
snapshot taken at fire time. -/
theorem notify_skips_callback_counterexample :
    (run (mkSys cfgNoHb) [.subscribeConnected ⟨0, .unsubFirst .connected 0⟩,
        .subscribeConnected ⟨1, .noop⟩]).ls.onConnectedCallbacks =
      [⟨0, .unsubFirst .connected 0⟩, ⟨1, .noop⟩] ∧
      (run (mkSys cfgNoHb) [.subscribeConnected ⟨0, .unsubFirst .connected 0⟩,
          .subscribeConnected ⟨1, .noop⟩, .connectCall true 0]).obs.invoked = [0] := by
  decide

/-- Claim C7 (amended): notification iterates the live listener array with a
per-callback try/catch: when no callback body mutates the listener
registries, every callback of the fire-time list runs, in order, even if
some of them throw (the throw is caught and counted as logged), the
registries are left unchanged and the manager/timer state is untouched.
The iteration is not a snapshot, however: a callback that unsubscribes
entries can shift the array and cause a still-registered callback to be
skipped. -/
theorem notify_isolation (k : EvKind) (s : Sys)
    (h : ∀ cb ∈ listOf s.ls k, benign cb = true) :
    (notify k s).obs.invoked = s.obs.invoked ++ (listOf s.ls k).map Cb.tag ∧
      (notify k s).ls = s.ls ∧ core (notify k s) = core s :=
  ⟨(notify_benign k s h).2, (notify_benign k s h).1, notify_core k s⟩

/-- Claim C7 witness: a throwing listener (tag 2) followed by a plain one
(tag 3) — both run. -/
theorem notify_isolation_witness :
    (notify .connected (run (mkSys cfgNoHb) [.subscribeConnected ⟨2, .throwErr⟩,
        .subscribeConnected ⟨3, .noop⟩])).obs.invoked = [2, 3] := by
  have h :=
    notify_isolation .connected
      (run (mkSys cfgNoHb) [.subscribeConnected ⟨2, .throwErr⟩, .subscribeConnected ⟨3, .noop⟩])
      (by decide)
  simpa using h.1

theorem removeFirstCb_of_not_mem (l : List Cb) (cb : Cb) (h : cb ∉ l) :
    removeFirstCb l cb = l := by
  induction l with
  | nil => rfl
  | cons a rest ih =>
      have ha : ¬ a = cb := by
        rintro rfl
        exact h (List.mem_cons_self a rest)
      have hrest : cb ∉ rest := fun hm => h (List.mem_cons_of_mem a hm)
      rw [removeFirstCb, if_neg ha, ih hrest]

theorem removeFirstCb_append (l1 l2 : List Cb) (cb : Cb) (h : cb ∉ l1) :
    removeFirstCb (l1 ++ cb :: l2) cb = l1 ++ l2 := by
  induction l1 with
  | nil => simp [removeFirstCb]
  | cons a rest ih =>
      have ha : ¬ a = cb := by
        rintro rfl
        exact h (List.mem_cons_self a rest)
      have hrest : cb ∉ rest := fun hm => h (List.mem_cons_of_mem a hm)
      rw [List.cons_append, removeFirstCb, if_neg ha, ih hrest, List.cons_append]

/-- Claim C8 counterexample: the same callback function (tag 7) is
registered twice; its unsubscribe closure does `indexOf` + `splice`.  The
first invocation removes one registration; the second invocation is not a
no-op — it removes the remaining registration too, leaving no subscription,
where the claim demands exactly one registration to remain. -/
theorem unsubscribe_twice_counterexample :
    (unsubscribeConnected (onConnected (onConnected (mkSys cfgNoHb) ⟨7, .noop⟩)
        ⟨7, .noop⟩) ⟨7, .noop⟩).ls.onConnectedCallbacks = [⟨7, .noop⟩] ∧
      (unsubscribeConnected (unsubscribeConnected (onConnected (onConnected
          (mkSys cfgNoHb) ⟨7, .noop⟩) ⟨7, .noop⟩) ⟨7, .noop⟩)
        ⟨7, .noop⟩).ls.onConnectedCallbacks = [] := by
  decide

/-- Claim C8 (amended): the unsubscribe closure removes the first list
occurrence of its captured callback function and never throws.  When that
function is registered at most once this removes exactly its own
registration and leaves every other subscription untouched, and any further
invocation (the callback no longer occurring) is a no-op that changes
nothing; when the same function is registered several times, each invocation
removes the earliest remaining occurrence, so repeated calls remove further
registrations. -/
theorem unsubscribe_policy :
    (∀ s cb l1 l2, s.ls.onConnectedCallbacks = l1 ++ cb :: l2 → cb ∉ l1 →
      (unsubscribeConnected s cb).ls.onConnectedCallbacks = l1 ++ l2) ∧
      (∀ s cb, cb ∉ s.ls.onConnectedCallbacks → unsubscribeConnected s cb = s) := by
  constructor
  · intro s cb l1 l2 hl hnm
    simp [unsubscribeConnected, hl, removeFirstCb_append l1 l2 cb hnm]
  · intro s cb h
    simp [unsubscribeConnected, removeFirstCb_of_not_mem _ cb h]

/-- Claim C8 witness: with distinct callbacks 4 and 6 registered once each,
unsubscribing 4 removes exactly that registration, and unsubscribing 4 again
afterwards changes nothing. -/
theorem unsubscribe_policy_witness :
    (unsubscribeConnected (onConnected (onConnected (mkSys cfgNoHb) ⟨4, .noop⟩)
        ⟨6, .noop⟩) ⟨4, .noop⟩).ls.onConnectedCallbacks = [⟨6, .noop⟩] ∧
      unsubscribeConnected (onConnected (mkSys cfgNoHb) ⟨6, .noop⟩) ⟨4, .noop⟩ =
        onConnected (mkSys cfgNoHb) ⟨6, .noop⟩ := by
  constructor
  · have h :=
      unsubscribe_policy.1 (onConnected (onConnected (mkSys cfgNoHb) ⟨4, .noop⟩) ⟨6, .noop⟩)
        ⟨4, .noop⟩ [] [⟨6, .noop⟩] (by decide) (by decide)
    simpa using h
  · exact unsubscribe_policy.2 (onConnected (mkSys cfgNoHb) ⟨6, .noop⟩) ⟨4, .noop⟩ (by decide)

/-- A configuration with heartbeat on (default) and autoReconnect off. -/
def cfgHbOnly : WebSocketManagerConfig :=
  { url := "ws://example", autoReconnect := some false, maxReconnectAttempts := none,
    heartbeatEnabled := none }

/-- Claim C9: for a live connection the dead-connection check fires exactly
when the time since the last pong exceeds `2 * WS_HEARTBEAT_TIMEOUT`; when it
fires, the forced close is handled by `handleDisconnection` — the very same
function the transport-close event runs — so recovery goes through the
normal disconnect-notification-then-reschedule path, not a separate one. -/
theorem heartbeat_deadcheck_policy :
    (∀ m now, m.provider.isSome = true →
      (hbDead m now = true ↔ now - m.lastPongTime > WS_HEARTBEAT_TIMEOUT * 2)) ∧
      (∀ s id now, id ∈ s.pendHbTimeout → hbDead s.mgr now = true →
        step s (.hbTimeoutFire id now) =
          handleDisconnection
            { s with pendHbTimeout := s.pendHbTimeout.filter (fun x => x ≠ id) }) ∧
      (∀ s, step s .closeEvent = handleDisconnection s) := by
  refine ⟨?_, ?_, fun s => rfl⟩
  · intro m now h
    simp [hbDead, h]
  · intro s id now hmem hdead
    simp only [step]
    rw [if_pos (List.elem_eq_true_of_mem hmem)]
    rw [if_pos hdead]

/-- Claim C9 witness: heartbeat-enabled manager, connect at time 0, one
heartbeat tick arming pong-timeout timer 1; at time 20000 (elapsed 20000 >
10000) the check declares the connection dead and the state steps through
`handleDisconnection`. -/
theorem heartbeat_deadcheck_policy_witness :
    (hbDead (run (mkSys cfgHbOnly) [.connectCall true 0, .hbTickFire 0]).mgr 20000 = true ↔
        (20000 : ℤ) -
            (run (mkSys cfgHbOnly) [.connectCall true 0, .hbTickFire 0]).mgr.lastPongTime >
          WS_HEARTBEAT_TIMEOUT * 2) ∧
      step (run (mkSys cfgHbOnly) [.connectCall true 0, .hbTickFire 0])
          (.hbTimeoutFire 1 20000) =
        handleDisconnection
          { run (mkSys cfgHbOnly) [.connectCall true 0, .hbTickFire 0] with
            pendHbTimeout :=
              (run (mkSys cfgHbOnly)
                  [.connectCall true 0, .hbTickFire 0]).pendHbTimeout.filter
                (fun x => x ≠ 1) } := by
  constructor
  · exact heartbeat_deadcheck_policy.1 _ 20000 (by decide)
  · exact heartbeat_deadcheck_policy.2.1 _ 1 20000 (by decide) (by decide)

/-- After destroy: auto-reconnect off and the destroyed flag set; no
operation ever re-enables either. -/
def Dead (s : Sys) : Prop := s.mgr.autoReconnect = false ∧ s.mgr.isDestroyed = true

theorem destroy_dead (s : Sys) : Dead (destroy s) := by
  constructor <;> simp [destroy, stopHeartbeat]

theorem notify_dead (k : EvKind) (s : Sys) (h : Dead s) : Dead (notify k s) := by
  unfold Dead at h ⊢
  rw [notify_mgr]
  exact h

theorem clearTimerQ_length (pend : List (ℕ × ℚ)) (t : Option ℕ) :
    (clearTimerQ pend t).length ≤ pend.length := by
  cases t with
  | none => exact le_refl _
  | some id => exact List.length_filter_le _ _

theorem connect_dead (s : Sys) (dialOk : Bool) (now : ℤ) (h : Dead s) :
    Dead (connect s dialOk now).1 ∧
      ((connect s dialOk now).1).pendReconnect = s.pendReconnect := by
  unfold Dead at h ⊢
  cases hp : s.mgr.provider with
  | some p =>
      unfold connect
      rw [hp]
      exact ⟨h, rfl⟩
  | none =>
      cases dialOk with
      | false => rw [connect_dial_fail_state]; exact ⟨h, rfl⟩
      | true =>
          rw [connect_of_provider_none s now hp]
          dsimp only
          rw [notifyConnected_mgr, notifyConnected_pendReconnect]
          by_cases hb : s.mgr.heartbeatEnabled = true <;>
            simp [hb, startHeartbeat, stopHeartbeat, h.1, h.2]

theorem handleDisconnection_dead (s : Sys) (h : Dead s) :
    Dead (handleDisconnection s) ∧
      (handleDisconnection s).pendReconnect = s.pendReconnect := by
  unfold Dead at h ⊢
  simp only [handleDisconnection]
  split
  · exfalso
    rename_i hguard
    rw [notifyDisconnected_mgr] at hguard
    simp [stopHeartbeat, h.1] at hguard
  · refine ⟨?_, ?_⟩
    · rw [notifyDisconnected_mgr]
      simp [stopHeartbeat, h.1, h.2]
    · rw [notifyDisconnected_pendReconnect]
      simp [stopHeartbeat]

theorem step_dead (s : Sys) (e : Ev) (h : Dead s) :
    Dead (step s e) ∧ (step s e).pendReconnect.length ≤ s.pendReconnect.length := by
  cases e with
  | connectCall dialOk now =>
      obtain ⟨h1, h2⟩ := connect_dead s dialOk now h
      exact ⟨h1, by rw [step, h2]⟩
  | closeEvent =>
      obtain ⟨h1, h2⟩ := handleDisconnection_dead s h
      exact ⟨h1, by rw [step, h2]⟩
  | errorEvent =>
      refine ⟨notify_dead .error s h, ?_⟩
      rw [step, notifyError, notify_pendReconnect]
  | pongEvent now => exact ⟨h, le_refl _⟩
  | reconnectFire id dialOk now =>
      simp only [step]
      split
      · obtain ⟨h1, h2⟩ :=
          connect_dead { s with pendReconnect := s.pendReconnect.filter (fun p => p.1 ≠ id) }
            dialOk now h
        refine ⟨h1, ?_⟩
        rw [h2]
        exact List.length_filter_le _ _
      · exact ⟨h, le_refl _⟩
  | hbTickFire id =>
      simp only [step]
      split
      · refine ⟨?_, ?_⟩
        · unfold Dead
          unfold hbTick
          cases hp : s.mgr.provider <;> simp [hp, h.1, h.2]
        · unfold hbTick
          cases hp : s.mgr.provider <;> simp [hp]
      · exact ⟨h, le_refl _⟩
  | hbTimeoutFire id now =>
      simp only [step]
      split
      · split
        · obtain ⟨h1, h2⟩ :=
            handleDisconnection_dead
              { s with pendHbTimeout := s.pendHbTimeout.filter (fun x => x ≠ id) } h
          refine ⟨h1, ?_⟩
          rw [h2]
        · exact ⟨h, le_refl _⟩
      · exact ⟨h, le_refl _⟩
  | destroyCall =>
      refine ⟨destroy_dead s, ?_⟩
      simp only [step, destroy, stopHeartbeat]
      exact clearTimerQ_length _ _
  | subscribeConnected cb => exact ⟨h, le_refl _⟩
  | subscribeDisconnected cb => exact ⟨h, le_refl _⟩
  | subscribeError cb => exact ⟨h, le_refl _⟩

theorem run_dead (evs : List Ev) : ∀ s : Sys, Dead s →
    Dead (run s evs) ∧ (run s evs).pendReconnect.length ≤ s.pendReconnect.length := by
  induction evs with
  | nil => exact fun s h => ⟨h, le_refl _⟩
  | cons e rest ih =>
      intro s h
      obtain ⟨h1, h2⟩ := step_dead s e h
      obtain ⟨h3, h4⟩ := ih (step s e) h1
      exact ⟨h3, le_trans h4 h2⟩

/-- Claim C10: `destroy()` sets `autoReconnect := false` and
`isDestroyed := true`, and no subsequent operation ever sets them back:
after any event trace following a destroy, `getStats().autoReconnect` is
false, and no reconnect timer is ever armed (the pending-reconnect count
never grows) — in particular a transport-reported closure of a connection
made by a later `connect()` schedules nothing. -/
theorem destroy_disables_reconnect_forever (s : Sys) (evs : List Ev) :
    (run (destroy s) evs).mgr.autoReconnect = false ∧
      (getStats (run (destroy s) evs)).autoReconnect = false ∧
      (run (destroy s) evs).pendReconnect.length ≤ (destroy s).pendReconnect.length := by
  obtain ⟨⟨h1, h2⟩, h3⟩ := run_dead evs (destroy s) (destroy_dead s)
  exact ⟨h1, by simpa [getStats] using h1, h3⟩

end WsMgr
